import Mathlib

/-!
Verification development for the OpenPNM property-composition core.

The definitions below are a shallow embedding of the sampled sources:

* OpenPNM/Physics/models/electrical_conductance.py (series_resistors),
* OpenPNM/Phases/__GenericPhase__.py (GenericPhase),
* openpnm/models/phases/mixtures.py (fuller_diffusivity, wilke_fuller_diffusivity).

Machine floats are embedded as rationals extended with a single point at
positive infinity (PVal); numpy arrays become lists; the dictionary-style
property stores become association lists with in-place replacement, so that
statements about aliasing and mutation of stored arrays can be made explicit
through state passing.  Methods of the Core base class that are absent from
the sample are modelled from the specification and marked as such in their
doc comments.
-/

namespace OpenPNMSpec

/-- A float value arising in the conductance computation: either a finite
rational or positive infinity (the only non-finite value these code paths
produce on rational inputs). -/
inductive PVal where
  | fin (q : ℚ)
  | inf
deriving DecidableEq

/-- Elementwise clamp used by series_resistors: a non-positive entry is
replaced by the floor 1e-12 (the masked assignments pdia1[pdia1<=0] = 1e-12,
pdia2[pdia2<=0] = 1e-12 and tlen[tlen<=0] = 1e-12). -/
def clampPos (x : ℚ) : ℚ := if x ≤ 0 then 1 / 1000000000000 else x

/-- The masked assignment gp[~(gp>0)] = inf: a value that is not strictly
positive becomes positive infinity. -/
def pclamp (g : ℚ) : PVal := if 0 < g then PVal.fin g else PVal.inf

/-- Float reciprocal on PVal: 1/x with 1/0 = inf and 1/inf = 0, matching the
IEEE behaviour of the numpy expressions 1/g and (...)**(-1). -/
def pinv : PVal → PVal
  | PVal.fin q => if q = 0 then PVal.inf else PVal.fin q⁻¹
  | PVal.inf => PVal.fin 0

/-- Float addition on PVal: any infinite summand makes the sum infinite. -/
def padd : PVal → PVal → PVal
  | PVal.fin a, PVal.fin b => PVal.fin (a + b)
  | _, _ => PVal.inf

/-- The raw half-pore conductance of series_resistors before the infinity
replacement: sigmat*parea/(0.5*pdia) with the diameter already clamped. -/
def halfGRaw (sigmat parea pdia : ℚ) : ℚ :=
  sigmat * parea / (1 / 2 * clampPos pdia)

/-- Half-pore conductance gp1 (resp. gp2) of series_resistors, after the
replacement gp[~(gp>0)] = inf. -/
def halfG (sigmat parea pdia : ℚ) : PVal :=
  pclamp (halfGRaw sigmat parea pdia)

/-- Throat-body conductance gt = sigmat*tarea/tlen of series_resistors, with
the length already clamped.  No infinity replacement is applied to gt. -/
def throatG (sigmat tarea tlen : ℚ) : ℚ := sigmat * tarea / clampPos tlen

/-- One edge of series_resistors: value = (1/gt + 1/gp1 + 1/gp2)**(-1). -/
def series_resistors_edge (sigmat parea1 pdia1 parea2 pdia2 tarea tlen : ℚ) :
    PVal :=
  pinv (padd (padd (pinv (PVal.fin (throatG sigmat tarea tlen)))
                   (pinv (halfG sigmat parea1 pdia1)))
             (pinv (halfG sigmat parea2 pdia2)))

/-- Read an array from a dictionary-style store. -/
def storeGet (s : List (String × List ℚ)) (k : String) : List ℚ :=
  (s.lookup k).getD []

/-- Write an array into a dictionary-style store: replace the entry in place
when the key is present, append it otherwise (Python dict assignment). -/
def storeSet : List (String × List ℚ) → String → List ℚ →
    List (String × List ℚ)
  | [], k, v => [(k, v)]
  | e :: rest, k, v =>
      if e.1 = k then (k, v) :: rest else e :: storeSet rest k v

/-- The Network as the conductance model sees it: the throat.conns incidence
array plus the keyed store of geometric property arrays.  The spec treats this
object as owned externally and never mutated. -/
structure NetState where
  conns : List (Nat × Nat)
  store : List (String × List ℚ)
deriving DecidableEq

/-- The whole series_resistors model, with the Network passed as explicit
state.  sigmat is the node-to-edge interpolated conductivity (produced by the
external interpolation collaborator) and physicsThroats is the list of throat
indices owned by the calling physics object (phase.throats(physics.name)).

The line tlen[tlen<=0] = 1e-12 of the source performs a masked assignment on
the very array object held in the network dictionary (pore diameters are read
through fancy indexing, which copies, but tlen aliases the stored array), so
the returned state carries the clamped throat.length array.  Modelled from the
spec for the part absent from the sample: Core.__getitem__ returns the stored
array itself. -/
def series_resistors_run (physicsThroats : List Nat) (sigmat : List ℚ)
    (net : NetState) : List PVal × NetState :=
  let Ps := net.conns
  let parea := storeGet net.store "pore.area"
  let pdia := storeGet net.store "pore.diameter"
  let tarea := storeGet net.store "throat.area"
  let tlen := (storeGet net.store "throat.length").map clampPos
  let net2 : NetState := { net with store := storeSet net.store "throat.length" tlen }
  let value := (List.range Ps.length).map (fun e =>
    let p := Ps.getD e (0, 0)
    series_resistors_edge (sigmat.getD e 0) (parea.getD p.1 0) (pdia.getD p.1 0)
      (parea.getD p.2 0) (pdia.getD p.2 0) (tarea.getD e 0) (tlen.getD e 0))
  (physicsThroats.map (fun t => value.getD t PVal.inf), net2)

/-- A physics object attached to a Phase, as the property-resolution paths of
GenericPhase see it: a name plus, per property key it defines, the (element
index, value) pairs it supplies on its owned subset. -/
structure Physics where
  pname : String
  props : List (String × List (Nat × ℚ))
deriving DecidableEq

/-- The keys a physics object defines (phys.keys() in the source). -/
def physKeys (ph : Physics) : List String := ph.props.map Prod.fst

/-- Errors of the property store contract. -/
inductive SetErr where
  | ownershipConflict
  | dimensionMismatch
deriving DecidableEq

/-- A Phase object's own state: the element counts copied from the network at
construction, its own property store and the list of attached physics
objects. -/
structure PhaseStore where
  np : Nat
  nt : Nat
  store : List (String × List ℚ)
  physics : List Physics
deriving DecidableEq

/-- Whether a property key addresses the node domain (its name begins with
pore.). -/
def poreKey (prop : String) : Bool := prop.data.take 5 == "pore.".data

/-- Element count of the domain a key addresses: pore-prefixed keys are
node-sized, the rest throat-sized. -/
def elemCount (p : PhaseStore) (prop : String) : Nat :=
  if poreKey prop then p.np else p.nt

/-- A value handed to the store: a full array or a bare scalar. -/
inductive PropVal where
  | scalar (q : ℚ)
  | arr (xs : List ℚ)
deriving DecidableEq

/-- Modelled from the spec: Core.__setitem__ / PropertyStore.set (the Core
base class is absent from the sample).  An array value whose length disagrees
with the element count of the key's domain fails with DimensionMismatch and
leaves the store untouched; a bare scalar is broadcast to a constant
full-length array; otherwise the array is stored. -/
def core_setitem (p : PhaseStore) (prop : String) (v : PropVal) :
    Option SetErr × PhaseStore :=
  match v with
  | PropVal.scalar q =>
      (none, { p with store := storeSet p.store prop (List.replicate (elemCount p prop) q) })
  | PropVal.arr xs =>
      if xs.length = elemCount p prop
      then (none, { p with store := storeSet p.store prop xs })
      else (some SetErr.dimensionMismatch, p)

/-- GenericPhase.__setitem__: when the key is already defined in at least one
attached physics object the write is rejected (the source reports the error
through the logger and returns before touching the store); otherwise the
write is delegated to the Core store. -/
def phase_setitem (p : PhaseStore) (prop : String) (v : PropVal) :
    Option SetErr × PhaseStore :=
  if p.physics.any (fun phys => (physKeys phys).contains prop)
  then (some SetErr.ownershipConflict, p)
  else core_setitem p prop v

/-- Modelled from the spec: Core._interleave_data (absent from the sample)
allocates a default-initialized full-length array and copies each source
physics object's per-subset values into the corresponding index positions; it
never writes the composed array anywhere. -/
def interleave_data (key : String) (sources : List Physics) (count : Nat) :
    List ℚ :=
  sources.foldl
    (fun arr phys =>
      match phys.props.lookup key with
      | none => arr
      | some pairs => pairs.foldl (fun a iq => a.set iq.1 iq.2) arr)
    (List.replicate count 0)

/-- GenericPhase.__getitem__, with the phase state threaded explicitly: on a
local store miss the value is composed from the attached physics objects,
otherwise the stored array is returned; in both branches the phase state is
returned unchanged. -/
def phase_getitem (p : PhaseStore) (key : String) : List ℚ × PhaseStore :=
  match p.store.lookup key with
  | none => (interleave_data key p.physics (elemCount p key), p)
  | some v => (v, p)

/-- The store initialization performed by GenericPhase.__init__: copy the
existence masks pore.all and throat.all from the network, then set the
standard conditions pore.temperature = 298.0 and pore.pressure = 101325.0.
A freshly constructed phase has no attached physics objects, and no model is
run during construction. -/
def generic_phase_init (np nt : Nat) (netStore : List (String × List ℚ)) :
    PhaseStore :=
  let p0 : PhaseStore := ⟨np, nt, [], []⟩
  let p1 := (phase_setitem p0 "pore.all" (PropVal.arr (storeGet netStore "pore.all"))).2
  let p2 := (phase_setitem p1 "throat.all" (PropVal.arr (storeGet netStore "throat.all"))).2
  let p3 := (phase_setitem p2 "pore.temperature" (PropVal.scalar 298)).2
  (phase_setitem p3 "pore.pressure" (PropVal.scalar 101325)).2

/-- Identifier of a model rule bound into a registry entry: the two rules the
mixture machinery injects (mixture_props.temperature, mixture_props.pressure)
and opaque user rules. -/
inductive Rule where
  | mixT
  | mixP
  | other (id : Nat)
deriving DecidableEq

/-- One entry of a model registry: target property key and rule.  The ordinal
position of an entry is its index in the registry list. -/
structure Model where
  propname : String
  rule : Rule
deriving DecidableEq

/-- Modelled from the spec: Core.add_model (absent from the sample) appends
the entry at the next ordinal position; when the target key already has an
entry it is replaced in place at the same ordinal. -/
def add_model (reg : List Model) (m : Model) : List Model :=
  if reg.any (fun e => e.propname == m.propname)
  then reg.map (fun e => if e.propname == m.propname then m else e)
  else reg ++ [m]

/-- Python dict.update / ODict.update: insert-or-replace each entry of the
argument in order. -/
def dict_update (base upd : List Model) : List Model := upd.foldl add_model base

/-- GenericPhase.set_component with mode add, effect on the component's model
registry.  In the source, temp = phase._models binds the same dictionary
object rather than a copy, so phase._models.clear() also empties temp; the
two T/P models are then added to the empty registry, and the final
phase._models.update(temp) updates the dictionary with its own current
contents (a no-op).  The prior registry contents passed in here are
discarded. -/
def set_component_add_models (models : List Model) : List Model :=
  let cleared : List Model := []
  let withT := add_model cleared (Model.mk "pore.temperature" Rule.mixT)
  let withP := add_model withT (Model.mk "pore.pressure" Rule.mixP)
  dict_update withP withP

/-- A phase object as the recursive regenerate walk sees it: its name, its
own model registry, and its component phases in attachment order. -/
inductive PhaseObj where
  | mk (oname : String) (models : List Model) (components : List PhaseObj)

/-- One model invocation during regeneration: the owning object's name and
the target property key. -/
structure Event where
  owner : String
  prop : String
deriving DecidableEq

mutual

/-- GenericPhase.regenerate: first regenerate every component phase (in
attachment order), then the object's own entries.  Modelled from the spec for
the part absent from the sample: Core.regenerate runs the object's own
entries in ordinal order.  The result is the trace of model invocations. -/
def regen_trace : PhaseObj → List Event
  | PhaseObj.mk oname models comps =>
      regen_traces comps ++ models.map (fun m => Event.mk oname m.propname)

/-- Concatenated regeneration traces of a list of phases, in order. -/
def regen_traces : List PhaseObj → List Event
  | [] => []
  | p :: ps => regen_trace p ++ regen_traces ps

end

/-- The per-node molecular data of one species read by fuller_diffusivity:
pore.molecular_weight and pore.molar_diffusion_volume. -/
structure SpeciesProps where
  M : ℝ
  v : ℝ

/-- fuller_diffusivity at one node, translated from the source.  Note that
the source assigns both vA and vB from species_A (the line
vB = species_A[molar_diffusion_volume]), so the second species' molar
diffusion volume is never read. -/
noncomputable def fuller_diffusivity (A B : SpeciesProps) (T P : ℝ) : ℝ :=
  0.00143 * T ^ (1.75 : ℝ) /
      (P * (1 / 100000) * (1000 * 2 * (1 / A.M + 1 / B.M)⁻¹) ^ ((0.5 : ℝ)) *
        (A.v ^ ((1 : ℝ) / 3) + A.v ^ ((1 : ℝ) / 3)) ^ (2 : ℕ)) *
    (1 / 10000)

/-- The Fuller correlation as the spec words it, for comparison with the
source: proportional to T^1.75 / (P * sqrt(M_AB) * (v_A^(1/3) + v_B^(1/3))^2)
with v_A and v_B the molar diffusion volumes of A and B respectively. -/
noncomputable def fuller_diffusivity_spec (A B : SpeciesProps) (T P : ℝ) : ℝ :=
  0.00143 * T ^ (1.75 : ℝ) /
      (P * (1 / 100000) * (1000 * 2 * (1 / A.M + 1 / B.M)⁻¹) ^ ((0.5 : ℝ)) *
        (A.v ^ ((1 : ℝ) / 3) + B.v ^ ((1 : ℝ) / 3)) ^ (2 : ℕ)) *
    (1 / 10000)

/-- One component of a mixture at one node, as wilke_fuller_diffusivity reads
it: its name, its mole fraction in the mixture, and its molecular data. -/
structure Comp where
  cname : String
  y : ℝ
  M : ℝ
  v : ℝ

/-- Component list access: comps[i], with an inert default out of range. -/
def compAt (comps : List Comp) (i : Nat) : Comp := comps.getD i ⟨"", 0, 0, 0⟩

/-- The binary diffusivity computed for a pair inside
wilke_fuller_diffusivity: a transient two-member MixDict context is built
(a dict copy of the mixture, so T and P are the mixture's) and
fuller_diffusivity is applied to it. -/
noncomputable def pairD (A B : Comp) (T P : ℝ) : ℝ :=
  fuller_diffusivity ⟨A.M, A.v⟩ ⟨B.M, B.v⟩ T P

/-- The value A[pore.D_in_ + B.name] after the pair loop of
wilke_fuller_diffusivity: for each pair with i < j the loop computes
fuller_diffusivity on (comps[i], comps[j]) and stores it symmetrically on
both components, so either direction of access reads the value computed with
the lower-index component as the first argument. -/
noncomputable def storedD (comps : List Comp) (T P : ℝ) (i j : Nat) : ℝ :=
  if i < j then pairD (compAt comps i) (compAt comps j) T P
  else pairD (compAt comps j) (compAt comps i) T P

/-- The denominator loop of wilke_fuller_diffusivity for component i:
denom starts at 0 and for every j with i != j accumulates yB / Dab. -/
noncomputable def wilke_denom (comps : List Comp) (T P : ℝ) (i : Nat) : ℝ :=
  (List.range comps.length).foldl
    (fun acc j =>
      if i ≠ j then acc + (compAt comps j).y / storedD comps T P i j else acc)
    0

/-- The effective diffusivity wilke_fuller_diffusivity returns for component
i: values[A.name] = (1 - yA) / denom. -/
noncomputable def wilke_value (comps : List Comp) (T P : ℝ) (i : Nat) : ℝ :=
  (1 - (compAt comps i).y) / wilke_denom comps T P i

/-! Theorems. -/

@[simp]
theorem pinv_fin (q : ℚ) :
    pinv (PVal.fin q) = if q = 0 then PVal.inf else PVal.fin q⁻¹ := rfl

@[simp]
theorem pinv_inf : pinv PVal.inf = PVal.fin 0 := rfl

@[simp]
theorem padd_fin (a b : ℚ) :
    padd (PVal.fin a) (PVal.fin b) = PVal.fin (a + b) := rfl

theorem clampPos_pos (x : ℚ) : 0 < clampPos x := by
  unfold clampPos
  split
  · norm_num
  · linarith [not_le.mp (by assumption : ¬ x ≤ 0)]

theorem clampPos_idem (x : ℚ) : clampPos (clampPos x) = clampPos x := by
  by_cases h : x ≤ 0
  · norm_num [clampPos, h]
  · simp [clampPos, h]

theorem halfG_fin_pos (s a d g : ℚ) (h : halfG s a d = PVal.fin g) : 0 < g := by
  unfold halfG pclamp at h
  by_cases hr : 0 < halfGRaw s a d
  · rw [if_pos hr] at h
    injection h with h2
    exact h2 ▸ hr
  · rw [if_neg hr] at h
    exact PVal.noConfusion h

/-- C3: in series_resistors, every node diameter that is not strictly
positive and every throat length that is not strictly positive is replaced by
the floor 1e-12, the resulting divisors 0.5*pdia and tlen are nonzero (so no
division by zero occurs), a half-pore conductance that is not strictly
positive is replaced by positive infinity before the series combination
(on the rational inputs of this embedding there are no non-finite inputs;
the replaced set is exactly the complement of the strictly positive one, as
in the source mask ~(gp>0)), and the replacement happens before any use: the
edge computation depends on the diameters and the length only through their
clamped values. -/
theorem series_resistors_clamps (d l s a a2 d2 ta : ℚ) :
    (d ≤ 0 → clampPos d = 1 / 1000000000000)
    ∧ (l ≤ 0 → clampPos l = 1 / 1000000000000)
    ∧ 1 / 2 * clampPos d ≠ 0
    ∧ clampPos l ≠ 0
    ∧ (¬ 0 < halfGRaw s a d → halfG s a d = PVal.inf)
    ∧ (0 < halfGRaw s a d → halfG s a d = PVal.fin (halfGRaw s a d))
    ∧ series_resistors_edge s a d a2 d2 ta l =
        series_resistors_edge s a (clampPos d) a2 (clampPos d2) ta
          (clampPos l) := by
  refine ⟨fun h => ?_, fun h => ?_, ?_, ?_, fun h => ?_, fun h => ?_, ?_⟩
  · simp [clampPos, h]
  · simp [clampPos, h]
  · have := clampPos_pos d
    positivity
  · exact ne_of_gt (clampPos_pos l)
  · simp [halfG, pclamp, h]
  · simp [halfG, pclamp, h]
  · simp only [series_resistors_edge, halfG, halfGRaw, throatG, clampPos_idem]

theorem series_resistors_clamps_witness :
    clampPos (-1 : ℚ) = 1 / 1000000000000
    ∧ clampPos (0 : ℚ) = 1 / 1000000000000
    ∧ halfG 1 0 5 = PVal.inf :=
  ⟨(series_resistors_clamps (-1) 0 1 0 0 0 0).1 (by norm_num),
   (series_resistors_clamps (-1) 0 1 0 0 0 0).2.1 (by norm_num),
   (series_resistors_clamps 5 0 1 0 0 0 0).2.2.2.2.1
     (by norm_num [halfGRaw, clampPos])⟩

/-- C2: for an edge whose throat conductance is positive, when both half-pore
conductances are finite the effective conductance computed by
series_resistors equals (1/g_edge + 1/g_node_a + 1/g_node_b)^(-1), and
whenever one of the half-pore conductances (the first, the second, or both)
is positive infinity it equals the series combination of the remaining
finite terms. -/
theorem series_resistors_series_law (s a1 d1 a2 d2 ta tl g1 g2 : ℚ)
    (hgt : 0 < throatG s ta tl) :
    (halfG s a1 d1 = PVal.fin g1 → halfG s a2 d2 = PVal.fin g2 →
      series_resistors_edge s a1 d1 a2 d2 ta tl =
        PVal.fin ((1 / throatG s ta tl + 1 / g1 + 1 / g2)⁻¹))
    ∧ (halfG s a1 d1 = PVal.inf → halfG s a2 d2 = PVal.fin g2 →
      series_resistors_edge s a1 d1 a2 d2 ta tl =
        PVal.fin ((1 / throatG s ta tl + 1 / g2)⁻¹))
    ∧ (halfG s a1 d1 = PVal.fin g1 → halfG s a2 d2 = PVal.inf →
      series_resistors_edge s a1 d1 a2 d2 ta tl =
        PVal.fin ((1 / throatG s ta tl + 1 / g1)⁻¹))
    ∧ (halfG s a1 d1 = PVal.inf → halfG s a2 d2 = PVal.inf →
      series_resistors_edge s a1 d1 a2 d2 ta tl =
        PVal.fin ((1 / throatG s ta tl)⁻¹)) := by
  have hgtne : throatG s ta tl ≠ 0 := ne_of_gt hgt
  refine ⟨fun h1 h2 => ?_, fun h1 h2 => ?_, fun h1 h2 => ?_, fun h1 h2 => ?_⟩
  · have hg1 : 0 < g1 := halfG_fin_pos s a1 d1 g1 h1
    have hg2 : 0 < g2 := halfG_fin_pos s a2 d2 g2 h2
    have hsum : (throatG s ta tl)⁻¹ + g1⁻¹ + g2⁻¹ ≠ 0 := by positivity
    simp [series_resistors_edge, h1, h2, hgtne, ne_of_gt hg1, ne_of_gt hg2,
      hsum, one_div]
  · have hg2 : 0 < g2 := halfG_fin_pos s a2 d2 g2 h2
    have hsum : (throatG s ta tl)⁻¹ + g2⁻¹ ≠ 0 := by positivity
    simp [series_resistors_edge, h1, h2, hgtne, ne_of_gt hg2, hsum, one_div]
  · have hg1 : 0 < g1 := halfG_fin_pos s a1 d1 g1 h1
    have hsum : (throatG s ta tl)⁻¹ + g1⁻¹ ≠ 0 := by positivity
    simp [series_resistors_edge, h1, h2, hgtne, ne_of_gt hg1, hsum, one_div]
  · have hsum : (throatG s ta tl)⁻¹ ≠ 0 := by positivity
    simp [series_resistors_edge, h1, h2, hgtne, hsum, one_div]

theorem series_resistors_series_law_witness :
    series_resistors_edge 1 1 2 1 2 1 1 =
      PVal.fin ((1 / throatG 1 1 1 + 1 / 1 + 1 / 1)⁻¹)
    ∧ series_resistors_edge 1 0 2 1 2 1 1 =
      PVal.fin ((1 / throatG 1 1 1 + 1 / 1)⁻¹)
    ∧ series_resistors_edge 1 1 2 0 2 1 1 =
      PVal.fin ((1 / throatG 1 1 1 + 1 / 1)⁻¹)
    ∧ series_resistors_edge 1 0 2 0 2 1 1 =
      PVal.fin ((1 / throatG 1 1 1)⁻¹) :=
  ⟨(series_resistors_series_law 1 1 2 1 2 1 1 1 1
        (by norm_num [throatG, clampPos])).1
      (by norm_num [halfG, pclamp, halfGRaw, clampPos])
      (by norm_num [halfG, pclamp, halfGRaw, clampPos]),
   (series_resistors_series_law 1 0 2 1 2 1 1 0 1
        (by norm_num [throatG, clampPos])).2.1
      (by norm_num [halfG, pclamp, halfGRaw, clampPos])
      (by norm_num [halfG, pclamp, halfGRaw, clampPos]),
   (series_resistors_series_law 1 1 2 0 2 1 1 1 0
        (by norm_num [throatG, clampPos])).2.2.1
      (by norm_num [halfG, pclamp, halfGRaw, clampPos])
      (by norm_num [halfG, pclamp, halfGRaw, clampPos]),
   (series_resistors_series_law 1 0 2 0 2 1 1 0 0
        (by norm_num [throatG, clampPos])).2.2.2
      (by norm_num [halfG, pclamp, halfGRaw, clampPos])
      (by norm_num [halfG, pclamp, halfGRaw, clampPos])⟩

/-- C4 fails on the code: running series_resistors on a network holding a
throat of length 0 overwrites the network's stored throat.length array (the
masked assignment tlen[tlen<=0] = 1e-12 acts on the array object held by the
network store), so the network is not left unchanged. -/
theorem series_resistors_mutates_throat_length :
    storeGet (NetState.mk [(0, 1)]
        [("pore.area", [1, 1]), ("pore.diameter", [1, 1]),
         ("throat.area", [1]), ("throat.length", [0])]).store "throat.length" = [0]
    ∧ storeGet (series_resistors_run [0] [1]
        (NetState.mk [(0, 1)]
          [("pore.area", [1, 1]), ("pore.diameter", [1, 1]),
           ("throat.area", [1]), ("throat.length", [0])])).2.store "throat.length" =
      [1 / 1000000000000] := by
  constructor
  · rfl
  · rfl

/-- C1: when some attached physics object already defines the key, Phase
__setitem__ reports the ownership conflict and returns the phase unchanged:
nothing is added to or overwritten in the phase's own store. -/
theorem phase_setitem_ownership (p : PhaseStore) (prop : String) (v : PropVal)
    (h : ∃ phys ∈ p.physics, prop ∈ physKeys phys) :
    phase_setitem p prop v = (some SetErr.ownershipConflict, p)
    ∧ (phase_setitem p prop v).2.store = p.store := by
  obtain ⟨phys, hmem, hkey⟩ := h
  have hb : p.physics.any (fun ph => (physKeys ph).contains prop) = true := by
    simp only [List.any_eq_true]
    exact ⟨phys, hmem, by simpa using hkey⟩
  have h1 : phase_setitem p prop v = (some SetErr.ownershipConflict, p) := by
    simp only [phase_setitem]
    rw [if_pos hb]
  exact ⟨h1, by rw [h1]⟩

theorem phase_setitem_ownership_witness :
    phase_setitem
        (PhaseStore.mk 2 1 [] [Physics.mk "phys1" [("throat.g", [(0, (1 : ℚ))])]])
        "throat.g" (PropVal.arr [5]) =
      (some SetErr.ownershipConflict,
        PhaseStore.mk 2 1 [] [Physics.mk "phys1" [("throat.g", [(0, (1 : ℚ))])]]) :=
  (phase_setitem_ownership _ _ _
    ⟨Physics.mk "phys1" [("throat.g", [(0, (1 : ℚ))])], by simp, by simp [physKeys]⟩).1

/-- C7: on a local store miss, Phase __getitem__ returns the array composed
from the attached physics objects and returns the phase state unchanged, so
nothing is cached and a later read composes again from the then-current
physics set. -/
theorem phase_getitem_no_caching (p : PhaseStore) (key : String)
    (h : p.store.lookup key = none) :
    (phase_getitem p key).1 = interleave_data key p.physics (elemCount p key)
    ∧ (phase_getitem p key).2 = p := by
  simp [phase_getitem, h]

theorem phase_getitem_no_caching_witness :
    (phase_getitem
        (PhaseStore.mk 1 0 [] [Physics.mk "physA" [("pore.x", [(0, (7 : ℚ))])]])
        "pore.x").2 =
      PhaseStore.mk 1 0 [] [Physics.mk "physA" [("pore.x", [(0, (7 : ℚ))])]] :=
  (phase_getitem_no_caching
    (PhaseStore.mk 1 0 [] [Physics.mk "physA" [("pore.x", [(0, (7 : ℚ))])]])
    "pore.x" rfl).2

theorem lookup_storeSet_self (s : List (String × List ℚ)) (k : String)
    (v : List ℚ) : (storeSet s k v).lookup k = some v := by
  induction s with
  | nil => simp [storeSet, List.lookup]
  | cons e rest ih =>
      by_cases he : e.1 = k
      · simp [storeSet, he, List.lookup]
      · have hbe : (k == e.1) = false := beq_eq_false_iff_ne.mpr (Ne.symm he)
        simp [storeSet, he, List.lookup, hbe, ih]

theorem lookup_storeSet_ne (s : List (String × List ℚ)) (k : String)
    (v : List ℚ) (k2 : String) (h : k2 ≠ k) :
    (storeSet s k v).lookup k2 = s.lookup k2 := by
  have hbe : (k2 == k) = false := beq_eq_false_iff_ne.mpr h
  induction s with
  | nil => simp [storeSet, List.lookup, hbe]
  | cons e rest ih =>
      by_cases he : e.1 = k
      · simp [storeSet, he, List.lookup, hbe]
      · simp only [storeSet, if_neg he]
        cases hke : (k2 == e.1) <;> simp [List.lookup, hke, ih]

theorem phase_setitem_np (p : PhaseStore) (prop : String) (v : PropVal) :
    ((phase_setitem p prop v).2).np = p.np := by
  unfold phase_setitem core_setitem
  split
  · rfl
  · split
    · rfl
    · split <;> rfl

theorem phase_setitem_physics (p : PhaseStore) (prop : String) (v : PropVal) :
    ((phase_setitem p prop v).2).physics = p.physics := by
  unfold phase_setitem core_setitem
  split
  · rfl
  · split
    · rfl
    · split <;> rfl

theorem phase_setitem_scalar_store (p : PhaseStore) (prop : String) (q : ℚ)
    (hphys : p.physics = []) :
    ((phase_setitem p prop (PropVal.scalar q)).2).store =
      storeSet p.store prop (List.replicate (elemCount p prop) q) := by
  simp [phase_setitem, hphys, core_setitem]

/-- C10: immediately after the store initialization of GenericPhase.__init__
(which runs no model), the phase's own store holds pore.temperature as the
constant array 298.0 over all nodes and pore.pressure as the constant array
101325.0 over all nodes, whatever the network store contains. -/
theorem generic_phase_init_standard_conditions (np nt : Nat)
    (netStore : List (String × List ℚ)) :
    (generic_phase_init np nt netStore).store.lookup "pore.temperature" =
      some (List.replicate np 298)
    ∧ (generic_phase_init np nt netStore).store.lookup "pore.pressure" =
      some (List.replicate np 101325) := by
  simp only [generic_phase_init]
  set p1 := (phase_setitem ⟨np, nt, [], []⟩ "pore.all"
      (PropVal.arr (storeGet netStore "pore.all"))).2 with hp1def
  set p2 := (phase_setitem p1 "throat.all"
      (PropVal.arr (storeGet netStore "throat.all"))).2 with hp2def
  set p3 := (phase_setitem p2 "pore.temperature" (PropVal.scalar 298)).2 with hp3def
  have h1phys : p1.physics = [] := by rw [hp1def, phase_setitem_physics]
  have h2phys : p2.physics = [] := by rw [hp2def, phase_setitem_physics, h1phys]
  have h3phys : p3.physics = [] := by rw [hp3def, phase_setitem_physics, h2phys]
  have h1np : p1.np = np := by rw [hp1def, phase_setitem_np]
  have h2np : p2.np = np := by rw [hp2def, phase_setitem_np, h1np]
  have h3np : p3.np = np := by rw [hp3def, phase_setitem_np, h2np]
  have hpkT : poreKey "pore.temperature" = true := by decide
  have hpkP : poreKey "pore.pressure" = true := by decide
  have h3store : p3.store =
      storeSet p2.store "pore.temperature" (List.replicate np 298) := by
    rw [hp3def, phase_setitem_scalar_store _ _ _ h2phys]
    simp [elemCount, hpkT, h2np]
  have h4store : ((phase_setitem p3 "pore.pressure" (PropVal.scalar 101325)).2).store =
      storeSet p3.store "pore.pressure" (List.replicate np 101325) := by
    rw [phase_setitem_scalar_store _ _ _ h3phys]
    simp [elemCount, hpkP, h3np]
  constructor
  · rw [h4store, lookup_storeSet_ne _ _ _ _ (by decide), h3store,
      lookup_storeSet_self]
  · rw [h4store, lookup_storeSet_self]

/-- C5 fails on the code through the set_component path: attaching a
component that already has a registered model leaves the component's registry
holding only the two injected temperature/pressure entries; the pre-existing
model is discarded (temp = phase._models aliases the registry, so clear()
also empties temp and the final update(temp) restores nothing). -/
theorem set_component_discards_models :
    set_component_add_models [Model.mk "pore.density" (Rule.other 0)] =
      [Model.mk "pore.temperature" Rule.mixT, Model.mk "pore.pressure" Rule.mixP]
    ∧ Model.mk "pore.density" (Rule.other 0) ∉
      set_component_add_models [Model.mk "pore.density" (Rule.other 0)] := by
  constructor
  · rfl
  · decide

/-- C6: the regeneration trace of a composite phase replays the component
phases' full regeneration traces (in attachment order) on the positions
before the boundary, and the composite's own model entries (in ordinal
order) on the positions at and after the boundary — so no composite-level
model runs before every component regeneration has finished. -/
theorem regenerate_components_first (oname : String) (models : List Model)
    (comps : List PhaseObj) :
    (∀ i, i < (regen_traces comps).length →
      (regen_trace (PhaseObj.mk oname models comps))[i]? =
        (regen_traces comps)[i]?)
    ∧ (∀ j, (regen_trace (PhaseObj.mk oname models comps))[(regen_traces comps).length + j]? =
        (models.map (fun m => Event.mk oname m.propname))[j]?)
    ∧ (regen_trace (PhaseObj.mk oname models comps)).length =
        (regen_traces comps).length + models.length := by
  refine ⟨fun i hi => ?_, fun j => ?_, ?_⟩
  · simp only [regen_trace]
    exact List.getElem?_append_left hi
  · simp only [regen_trace]
    rw [List.getElem?_append_right (Nat.le_add_right _ _),
      Nat.add_sub_cancel_left]
  · simp [regen_trace]

theorem regenerate_components_first_witness :
    (regen_trace (PhaseObj.mk "mix" [Model.mk "pore.mu" (Rule.other 0)]
        [PhaseObj.mk "water" [Model.mk "pore.temperature" Rule.mixT] []]))[0]? =
      (regen_traces
        [PhaseObj.mk "water" [Model.mk "pore.temperature" Rule.mixT] []])[0]?
    ∧ (regen_trace (PhaseObj.mk "mix" [Model.mk "pore.mu" (Rule.other 0)]
        [PhaseObj.mk "water" [Model.mk "pore.temperature" Rule.mixT] []]))[(regen_traces
          [PhaseObj.mk "water" [Model.mk "pore.temperature" Rule.mixT] []]).length + 0]? =
      ([Model.mk "pore.mu" (Rule.other 0)].map
        (fun m => Event.mk "mix" m.propname))[0]? := by
  refine ⟨(regenerate_components_first "mix" _ _).1 0 ?_,
    (regenerate_components_first "mix" _ _).2.1 0⟩
  simp [regen_traces, regen_trace]

/-- C8 fails on the code: because fuller_diffusivity reads both molar
diffusion volumes from species_A, two species pairs that differ only in the
second species' diffusion volume give a value different from the Fuller
correlation written with v_A and v_B; at T = 1, P = 1e5, M_A = M_B = 1e-3,
v_A = 1, v_B = 8 the code divides by (1 + 1)^2 where the correlation divides
by (1 + 2)^2. -/
theorem fuller_reads_both_volumes_from_A :
    fuller_diffusivity ⟨1 / 1000, 1⟩ ⟨1 / 1000, 8⟩ 1 100000 ≠
      fuller_diffusivity_spec ⟨1 / 1000, 1⟩ ⟨1 / 1000, 8⟩ 1 100000 := by
  have h8 : (8 : ℝ) ^ ((1 : ℝ) / 3) = 2 := by
    rw [show (8 : ℝ) = 2 ^ (3 : ℕ) by norm_num, ← Real.rpow_natCast 2 3,
      ← Real.rpow_mul (by norm_num : (0 : ℝ) ≤ 2)]
    norm_num
  norm_num [fuller_diffusivity, fuller_diffusivity_spec, Real.one_rpow, h8]

theorem foldl_filter_sum (f : Nat → ℝ) (i n : Nat) :
    ∀ a : ℝ,
      (List.range n).foldl (fun acc j => if i ≠ j then acc + f j else acc) a =
        a + ∑ j in (Finset.range n).filter (fun j => i ≠ j), f j := by
  induction n with
  | zero => intro a; simp
  | succ n ih =>
      intro a
      rw [List.range_succ, List.foldl_append]
      simp only [List.foldl_cons, List.foldl_nil]
      rw [ih]
      by_cases hin : i ≠ n
      · rw [if_pos hin, Finset.range_succ, Finset.filter_insert, if_pos hin,
          Finset.sum_insert (by simp)]
        ring
      · rw [if_neg hin, Finset.range_succ, Finset.filter_insert, if_neg hin]

/-- C9 (amended): the effective diffusivity wilke_fuller_diffusivity returns
for component i is (1 - y_i) / sum over j with j different from i of
y_j / D_ij, with D_ij the pairwise binary diffusivity the routine stored; and
for a two-component mixture whose mole fractions sum to 1, each of the two
components receives, at every node where its partner's mole fraction is
nonzero, exactly the stored binary diffusivity of the pair (the routine
stores one value symmetrically on both, computed with the first-listed
component as first argument). -/
theorem wilke_reduction (comps : List Comp) (T P : ℝ) (i : Nat) (A B : Comp) :
    (wilke_value comps T P i =
      (1 - (compAt comps i).y) /
        ∑ j in (Finset.range comps.length).filter (fun j => i ≠ j),
          (compAt comps j).y / storedD comps T P i j)
    ∧ (A.y + B.y = 1 → B.y ≠ 0 →
        wilke_value [A, B] T P 0 = storedD [A, B] T P 0 1)
    ∧ (A.y + B.y = 1 → A.y ≠ 0 →
        wilke_value [A, B] T P 1 = storedD [A, B] T P 0 1) := by
  refine ⟨?_, fun hsum hB => ?_, fun hsum hA => ?_⟩
  · unfold wilke_value wilke_denom
    rw [foldl_filter_sum, zero_add]
  · have hden : wilke_denom [A, B] T P 0 = B.y / storedD [A, B] T P 0 1 := by
      simp [wilke_denom, List.range_succ, compAt]
    have h1A : 1 - (compAt [A, B] 0).y = B.y := by
      simp only [compAt, List.getD_cons_zero]
      linarith
    unfold wilke_value
    rw [hden, h1A]
    rcases eq_or_ne (storedD [A, B] T P 0 1) 0 with hD | hD
    · rw [hD]
      simp
    · rw [div_div_eq_mul_div, mul_comm, mul_div_assoc, div_self hB, mul_one]
  · have hden : wilke_denom [A, B] T P 1 = A.y / storedD [A, B] T P 0 1 := by
      simp [wilke_denom, List.range_succ, compAt, storedD]
    have h1B : 1 - (compAt [A, B] 1).y = A.y := by
      simp only [compAt, List.getD_cons_succ, List.getD_cons_zero]
      linarith
    unfold wilke_value
    rw [hden, h1B]
    rcases eq_or_ne (storedD [A, B] T P 0 1) 0 with hD | hD
    · rw [hD]
      simp
    · rw [div_div_eq_mul_div, mul_comm, mul_div_assoc, div_self hA, mul_one]

theorem wilke_reduction_witness :
    wilke_value [Comp.mk "A" (1 / 2) (1 / 1000) 1,
        Comp.mk "B" (1 / 2) (1 / 1000) 1] 1 100000 0 =
      storedD [Comp.mk "A" (1 / 2) (1 / 1000) 1,
        Comp.mk "B" (1 / 2) (1 / 1000) 1] 1 100000 0 1
    ∧ wilke_value [Comp.mk "A" (1 / 2) (1 / 1000) 1,
        Comp.mk "B" (1 / 2) (1 / 1000) 1] 1 100000 1 =
      storedD [Comp.mk "A" (1 / 2) (1 / 1000) 1,
        Comp.mk "B" (1 / 2) (1 / 1000) 1] 1 100000 0 1 :=
  ⟨(wilke_reduction
      [Comp.mk "A" (1 / 2) (1 / 1000) 1, Comp.mk "B" (1 / 2) (1 / 1000) 1]
      1 100000 0 (Comp.mk "A" (1 / 2) (1 / 1000) 1)
      (Comp.mk "B" (1 / 2) (1 / 1000) 1)).2.1 (by norm_num) (by norm_num),
   (wilke_reduction
      [Comp.mk "A" (1 / 2) (1 / 1000) 1, Comp.mk "B" (1 / 2) (1 / 1000) 1]
      1 100000 1 (Comp.mk "A" (1 / 2) (1 / 1000) 1)
      (Comp.mk "B" (1 / 2) (1 / 1000) 1)).2.2 (by norm_num) (by norm_num)⟩

/-- C9 as stated fails at a node where one component is pure: with mole
fractions y_A = 1, y_B = 0 (which sum to 1), the code computes
(1 - 1)/(0/D) rather than the stored binary diffusivity D, which is nonzero
here (in IEEE arithmetic the quotient is NaN; in this rational-valued
embedding it is 0; either way it differs from D). -/
theorem wilke_reduction_cex :
    (Comp.mk "A" 1 (1 / 1000) 1).y + (Comp.mk "B" 0 (1 / 1000) 1).y = 1
    ∧ wilke_value [Comp.mk "A" 1 (1 / 1000) 1,
        Comp.mk "B" 0 (1 / 1000) 1] 1 100000 0 = 0
    ∧ storedD [Comp.mk "A" 1 (1 / 1000) 1,
        Comp.mk "B" 0 (1 / 1000) 1] 1 100000 0 1 ≠ 0 := by
  refine ⟨by norm_num, ?_, ?_⟩
  · simp [wilke_value, compAt]
  · norm_num [storedD, pairD, fuller_diffusivity, compAt, Real.one_rpow]

end OpenPNMSpec
